import Mathlib

/-!
Shallow embedding of the signal-generation and backtesting core of the
`algo_trading` repository: `modules/data_loader.py`
(`calculate_technical_indicators`), `modules/strategy_engine.py`
(`generate_signals`) and `modules/backtester.py` (`backtest_strategy`),
with the configuration constants of `config/settings.py`.

Floats are modelled as exact rationals; a pandas NaN cell is modelled as
`none : Option ℚ`.  Pandas `inf` (from dividing a positive float by zero)
only arises for the `Volume_Ratio` column, which no downstream decision
reads; it is modelled as `none` as well.  The Bollinger-band columns need
real square roots, are read by nothing in the core path, and are omitted.
-/

namespace AlgoTrading

/-! ## config/settings.py -/

def INITIAL_CAPITAL : ℚ := 100000
def RSI_WINDOW : ℕ := 14
def DMA_SHORT : ℕ := 20
def DMA_LONG : ℕ := 50

/-! ## Data model -/

/-- One OHLCV bar (a row of the raw DataFrame). -/
structure Bar where
  Timestamp : ℕ
  Open : ℚ
  High : ℚ
  Low : ℚ
  Close : ℚ
  Volume : ℚ
deriving Repr, DecidableEq

instance : Inhabited Bar := ⟨⟨0, 0, 0, 0, 0, 0⟩⟩

def closeAt (bars : List Bar) (i : ℕ) : ℚ := (bars.getD i default).Close

def volumeAt (bars : List Bar) (i : ℕ) : ℚ := (bars.getD i default).Volume

def timestampAt (bars : List Bar) (i : ℕ) : ℕ := (bars.getD i default).Timestamp

/-! ## data_loader.calculate_technical_indicators -/

/-- `delta = df['Close'].diff()`: defined from index 1 on. -/
def delta (bars : List Bar) (i : ℕ) : ℚ := closeAt bars i - closeAt bars (i - 1)

/-- `gain = delta.where(delta > 0, 0)`; the NaN at index 0 fails the
`delta > 0` test, so the cell becomes 0, not NaN. -/
def gain (bars : List Bar) : ℕ → ℚ
  | 0 => 0
  | i + 1 => if 0 < delta bars (i + 1) then delta bars (i + 1) else 0

/-- `loss = -delta.where(delta < 0, 0)`. -/
def loss (bars : List Bar) : ℕ → ℚ
  | 0 => 0
  | i + 1 => if delta bars (i + 1) < 0 then -delta bars (i + 1) else 0

/-- `ewm(alpha=1/RSI_WINDOW, adjust=False).mean()` recurrence:
`y 0 = x 0`, `y (i+1) = (1 - α) * y i + α * x (i+1)`. -/
def ewmWilder (x : ℕ → ℚ) : ℕ → ℚ
  | 0 => x 0
  | i + 1 => (1 - 1 / (RSI_WINDOW : ℚ)) * ewmWilder x i + (1 / (RSI_WINDOW : ℚ)) * x (i + 1)

def avg_gain (bars : List Bar) (i : ℕ) : ℚ := ewmWilder (gain bars) i

def avg_loss (bars : List Bar) (i : ℕ) : ℚ := ewmWilder (loss bars) i

/-- `rs = avg_gain / avg_loss; RSI = 100 - 100/(1+rs)` at one index.
In float arithmetic `g / 0 = inf` for `g > 0`, giving RSI `= 100`, and
`0 / 0 = NaN`, giving an undefined RSI cell. -/
def rsiFromAvg (g l : ℚ) : Option ℚ :=
  if l = 0 then (if 0 < g then some 100 else none)
  else some (100 - 100 / (1 + g / l))

/-- The RSI column: `min_periods=RSI_WINDOW` makes the first
`RSI_WINDOW - 1` cells NaN. -/
def RSIat (bars : List Bar) (i : ℕ) : Option ℚ :=
  if i + 1 < RSI_WINDOW then none
  else rsiFromAvg (avg_gain bars i) (avg_loss bars i)

/-- `rolling(window=w).mean()`: NaN until `w` observations exist. -/
def rollingMean (x : ℕ → ℚ) (w : ℕ) (i : ℕ) : Option ℚ :=
  if i + 1 < w then none
  else some ((((List.range w).map fun k => x (i - k)).sum) / (w : ℚ))

def DMA20at (bars : List Bar) (i : ℕ) : Option ℚ := rollingMean (closeAt bars) DMA_SHORT i

def DMA50at (bars : List Bar) (i : ℕ) : Option ℚ := rollingMean (closeAt bars) DMA_LONG i

/-- `ewm(span=s, adjust=False).mean()` recurrence with `α = 2/(s+1)`. -/
def emaSpan (s : ℕ) (x : ℕ → ℚ) : ℕ → ℚ
  | 0 => x 0
  | i + 1 => (1 - 2 / ((s : ℚ) + 1)) * emaSpan s x i + (2 / ((s : ℚ) + 1)) * x (i + 1)

def MACDat (bars : List Bar) (i : ℕ) : ℚ :=
  emaSpan 12 (closeAt bars) i - emaSpan 26 (closeAt bars) i

def MACDSignalAt (bars : List Bar) (i : ℕ) : ℚ := emaSpan 9 (MACDat bars) i

def MACDHistAt (bars : List Bar) (i : ℕ) : ℚ := MACDat bars i - MACDSignalAt bars i

/-- `df['Volume'] / df['Volume_MA']` with `Volume_MA = rolling(20).mean()`.
NaN while the rolling mean is NaN; a zero mean gives inf or NaN in floats,
modelled as undefined (unread downstream). -/
def VolumeRatioAt (bars : List Bar) (i : ℕ) : Option ℚ :=
  match rollingMean (volumeAt bars) 20 i with
  | none => none
  | some m => if m = 0 then none else some (volumeAt bars i / m)

/-- A row of the indicator DataFrame after the essential-column cleanup:
`RSI` and `DMA_20` are guaranteed defined, `DMA_50` and `Volume_Ratio`
may still be NaN. -/
structure IndicatorRow where
  Timestamp : ℕ
  Close : ℚ
  RSI : ℚ
  DMA_20 : ℚ
  DMA_50 : Option ℚ
  MACD : ℚ
  MACD_Signal : ℚ
  MACD_Histogram : ℚ
  Volume_Ratio : Option ℚ
deriving Repr, DecidableEq

/-- `df.dropna(subset=['RSI','DMA_20'])`: the row at index `i` survives
exactly when both essential cells are defined. -/
def rawRow (bars : List Bar) (i : ℕ) : Option IndicatorRow :=
  match RSIat bars i, DMA20at bars i with
  | some r, some m20 =>
      some ⟨timestampAt bars i, closeAt bars i, r, m20, DMA50at bars i,
            MACDat bars i, MACDSignalAt bars i, MACDHistAt bars i, VolumeRatioAt bars i⟩
  | _, _ => none

/-- `df_clean.ffill()`: each still-NaN cell takes the last defined value
above it in its column (`DMA_50` and `Volume_Ratio` are the only columns
that can still hold NaN). -/
def ffillRows : Option ℚ → Option ℚ → List IndicatorRow → List IndicatorRow
  | _, _, [] => []
  | d50, vr, r :: rs =>
      let d50' := match r.DMA_50 with | some x => some x | none => d50
      let vr' := match r.Volume_Ratio with | some x => some x | none => vr
      { r with DMA_50 := d50', Volume_Ratio := vr' } :: ffillRows d50' vr' rs

/-- `data_loader.calculate_technical_indicators`: empty input returns the
empty frame unchanged; fewer rows than `RSI_WINDOW` returns an empty
frame; otherwise compute all indicator columns, drop rows lacking the
essential `RSI`/`DMA_20` cells, and forward-fill the remaining NaNs. -/
def calculate_technical_indicators (bars : List Bar) : List IndicatorRow :=
  if bars.isEmpty then []
  else if bars.length < RSI_WINDOW then []
  else ffillRows none none ((List.range bars.length).filterMap (rawRow bars))

/-! ## strategy_engine.generate_signals

The source iterates `for i in range(1, len(df))`, reading
`current_position = df['Position'].iloc[i-1]` and writing the `Signal`
and `Position` cells of row `i` in place.  Row 0 keeps the initialised
`Signal = 0`, `Position = 0`.
-/

/-- `has_long_ma = not df['DMA_50'].isna().all()`. -/
def has_long_ma (rows : List IndicatorRow) : Bool :=
  !(rows.all fun r => r.DMA_50.isNone)

/-- `current_ma50 = df['DMA_50'].iloc[i] if not isna else current_ma20`. -/
def current_ma50 (cur : IndicatorRow) : ℚ := cur.DMA_50.getD cur.DMA_20

/-- `prev_ma50 = df['DMA_50'].iloc[i-1] if i > 0 and not isna else prev_ma20`
(the loop always has `i > 0`). -/
def prev_ma50 (prev : IndicatorRow) : ℚ := prev.DMA_50.getD prev.DMA_20

/-- The source guards the long-MA branch with
`has_long_ma and not pd.isna(current_ma50) and not pd.isna(prev_ma50)`.
Since `current_ma50`/`prev_ma50` already fell back to the always-defined
`DMA_20`, those two `isna` tests are vacuously false and the guard
reduces to `has_long_ma` alone. -/
def golden_cross (hlm : Bool) (prev cur : IndicatorRow) : Bool :=
  if hlm then
    decide (current_ma50 cur < cur.DMA_20) && decide (prev.DMA_20 ≤ prev_ma50 prev)
  else
    decide (cur.DMA_20 < cur.Close) && decide (prev.Close ≤ prev.DMA_20)

/-- `ma20_above_ma50`, or the `Close > DMA_20` fallback without long MA. -/
def ma20_above_ma50 (hlm : Bool) (cur : IndicatorRow) : Bool :=
  if hlm then decide (current_ma50 cur < cur.DMA_20) else decide (cur.DMA_20 < cur.Close)

/-- Death-cross detection, same guard reduction as `golden_cross`. -/
def death_cross (hlm : Bool) (prev cur : IndicatorRow) : Bool :=
  if hlm then
    decide (cur.DMA_20 < current_ma50 cur) && decide (prev_ma50 prev ≤ prev.DMA_20)
  else
    decide (cur.Close < cur.DMA_20) && decide (prev.DMA_20 ≤ prev.Close)

/-- `ma20_below_ma50`, or the `Close < DMA_20` fallback without long MA. -/
def ma20_below_ma50 (hlm : Bool) (cur : IndicatorRow) : Bool :=
  if hlm then decide (cur.DMA_20 < current_ma50 cur) else decide (cur.Close < cur.DMA_20)

/-- `strong_buy or golden_buy or trend_buy` for row `i` (`cur`) given row
`i-1` (`prev`) and `current_position`. -/
def buyCond (hlm : Bool) (prev cur : IndicatorRow) (current_position : ℤ) : Bool :=
  let strong_buy := decide (cur.RSI < 25) && ma20_above_ma50 hlm cur
      && decide (current_position ≤ 0)
  let golden_buy := golden_cross hlm prev cur && decide (cur.RSI < 40)
      && decide (current_position ≤ 0)
  let trend_buy := decide (cur.RSI < 30) && ma20_above_ma50 hlm cur
      && decide (cur.DMA_20 < cur.Close) && decide (current_position ≤ 0)
  strong_buy || golden_buy || trend_buy

/-- `strong_sell or death_sell or trend_sell or stop_loss` for row `i`. -/
def sellCond (hlm : Bool) (prev cur : IndicatorRow) (current_position : ℤ) : Bool :=
  let strong_sell := decide (70 < cur.RSI)
  let death_sell := death_cross hlm prev cur && decide (0 < current_position)
  let trend_sell := decide (65 < cur.RSI) && ma20_below_ma50 hlm cur
      && decide (0 < current_position)
  let stop_loss := decide (cur.Close < cur.DMA_20) && ma20_below_ma50 hlm cur
      && decide (0 < current_position)
  strong_sell || death_sell || trend_sell || stop_loss

/-- One loop iteration, mirroring the in-place cell writes of the source:
both cells start at the initialised 0; the buy branch writes `(1, 1)`;
the sell `if` then writes `(-1, 0)`, and its `else` branch re-writes the
`Position` cell to `current_position` — overwriting the `1` a buy row
just stored.  Returns the final `(Signal, Position)` of row `i`. -/
def signalRow (hlm : Bool) (prev cur : IndicatorRow) (current_position : ℤ) : ℤ × ℤ :=
  let s0 : ℤ × ℤ := (0, 0)
  let s1 := if buyCond hlm prev cur current_position then ((1 : ℤ), (1 : ℤ)) else s0
  if sellCond hlm prev cur current_position then ((-1 : ℤ), (0 : ℤ))
  else (s1.1, current_position)

/-- An `IndicatorRow` with the two columns `generate_signals` adds. -/
structure SignalRow extends IndicatorRow where
  Signal : ℤ
  Position : ℤ
deriving Repr, DecidableEq

/-- Rows `1, 2, …` of the loop: `prev` is row `i-1`, `pos` the `Position`
cell written at row `i-1`. -/
def signalsAux (hlm : Bool) : IndicatorRow → ℤ → List IndicatorRow → List SignalRow
  | _, _, [] => []
  | prev, pos, cur :: rest =>
      let sp := signalRow hlm prev cur pos
      ⟨cur, sp.1, sp.2⟩ :: signalsAux hlm cur sp.2 rest

/-- `strategy_engine.generate_signals`: row 0 keeps `Signal = 0`,
`Position = 0`; later rows are produced by the forward loop. -/
def generate_signals (rows : List IndicatorRow) : List SignalRow :=
  match rows with
  | [] => []
  | r0 :: rest => ⟨r0, 0, 0⟩ :: signalsAux (has_long_ma rows) r0 0 rest

/-! ## backtester.backtest_strategy -/

inductive TradeType
  | BUY
  | SELL
deriving Repr, DecidableEq

/-- One entry of the `trades` list.  `Side` renders the source's `'Type'`
key (`Type` is reserved in Lean); a BUY dict has no `'PnL'` key, so
`PnL` is `none` on BUYs. -/
structure Trade where
  Timestamp : ℕ
  Side : TradeType
  Price : ℚ
  Quantity : ℤ
  PnL : Option ℚ
  RSI : ℚ
  DMA_20 : ℚ
  DMA_50 : Option ℚ
  MACD : ℚ
  Volume_Ratio : Option ℚ
deriving Repr, DecidableEq

/-- The mutable state of the simulation loop. -/
structure BTState where
  position : ℤ
  trades : List Trade
  capital : ℚ
  trade_count : ℕ
  win_count : ℕ
  buy_price : ℚ
deriving Repr, DecidableEq

def btInit (initial_capital : ℚ) : BTState :=
  ⟨0, [], initial_capital, 0, 0, 0⟩

/-- One iteration of `for date, row in df.iterrows()`:
the buy branch (`Signal == 1 and position == 0`) takes
`position = capital // close` (float floor division, here `Int.floor`),
deducts `position * buy_price` and appends a BUY dict — note it appends
even when the computed share count is 0; the sell branch
(`Signal == -1 and position > 0`) realises the position. -/
def btStep (s : BTState) (row : SignalRow) : BTState :=
  if row.Signal = 1 ∧ s.position = 0 then
    let position : ℤ := ⌊s.capital / row.Close⌋
    let buy_price := row.Close
    let capital := s.capital - (position : ℚ) * buy_price
    { s with
      position := position, buy_price := buy_price, capital := capital,
      trades := s.trades ++ [⟨row.Timestamp, TradeType.BUY, buy_price, position, none,
        row.RSI, row.DMA_20, row.DMA_50, row.MACD, row.Volume_Ratio⟩] }
  else if row.Signal = -1 ∧ 0 < s.position then
    let sell_price := row.Close
    let trade_value := (s.position : ℚ) * sell_price
    let capital := s.capital + trade_value
    let pnl := (sell_price - s.buy_price) * (s.position : ℚ)
    { s with
      capital := capital,
      trades := s.trades ++ [⟨row.Timestamp, TradeType.SELL, sell_price, s.position, some pnl,
        row.RSI, row.DMA_20, row.DMA_50, row.MACD, row.Volume_Ratio⟩],
      win_count := s.win_count + (if 0 < pnl then 1 else 0),
      trade_count := s.trade_count + 1,
      position := 0 }
  else s

/-- `# Close any remaining position at the end`: if `position > 0`,
force-close at `df['Close'].iloc[-1]` with the same accounting as a SELL
(the `position` variable itself is not reset afterwards in the source).
A positive position is only reachable with at least one row, so the
`none` branch is dead. -/
def btFlush (rows : List SignalRow) (s : BTState) : BTState :=
  if 0 < s.position then
    match rows.getLast? with
    | some last =>
        let final_price := last.Close
        let trade_value := (s.position : ℚ) * final_price
        let capital := s.capital + trade_value
        let pnl := (final_price - s.buy_price) * (s.position : ℚ)
        { s with
          capital := capital,
          trades := s.trades ++ [⟨last.Timestamp, TradeType.SELL, final_price, s.position,
            some pnl, last.RSI, last.DMA_20, last.DMA_50, last.MACD, last.Volume_Ratio⟩],
          win_count := s.win_count + (if 0 < pnl then 1 else 0),
          trade_count := s.trade_count + 1 }
    | none => s
  else s

/-- Loop plus end-of-sequence flush. -/
def btFinalState (rows : List SignalRow) (initial_capital : ℚ) : BTState :=
  btFlush rows (rows.foldl btStep (btInit initial_capital))

/-- `backtester.backtest_strategy`: returns
`(trades, total_return, win_rate, trade_count)`. -/
def backtest_strategy (rows : List SignalRow) (initial_capital : ℚ) :
    List Trade × ℚ × ℚ × ℕ :=
  let s := btFinalState rows initial_capital
  let total_return := (s.capital - initial_capital) / initial_capital
  let win_rate := if 0 < s.trade_count then (s.win_count : ℚ) / (s.trade_count : ℚ) else 0
  (s.trades, total_return, win_rate, s.trade_count)

/-! ## Observations on the trade ledger -/

def numBuys (ts : List Trade) : ℕ := ts.countP fun t => decide (t.Side = TradeType.BUY)

def numSells (ts : List Trade) : ℕ := ts.countP fun t => decide (t.Side = TradeType.SELL)

/-- BUY trades that actually moved shares (`Quantity > 0`). -/
def numPosBuys (ts : List Trade) : ℕ :=
  ts.countP fun t => decide (t.Side = TradeType.BUY ∧ 0 < t.Quantity)

/-- Sum of the `PnL` fields of the SELL trades of a ledger. -/
def sellPnLSum (ts : List Trade) : ℚ :=
  ((ts.filter fun t => decide (t.Side = TradeType.SELL)).map fun t => t.PnL.getD 0).sum

/-- The core pipeline: indicators, then signals, then the backtest. -/
def runPipeline (bars : List Bar) (initial_capital : ℚ) :
    List SignalRow × (List Trade × ℚ × ℚ × ℕ) :=
  let sigRows := generate_signals (calculate_technical_indicators bars)
  (sigRows, backtest_strategy sigRows initial_capital)

/-! ## Concrete inputs used by the closed theorems -/

/-- Row 0 of a two-row signal-engine input (a hold row). -/
def c1row0 : IndicatorRow := ⟨0, 10, 50, 10, some 12, 0, 0, 0, none⟩

/-- Row 1: deeply oversold (`RSI = 20`) in an uptrend
(`DMA_20 = 10 > DMA_50 = 5`, `Close = 15 > DMA_20`), flat position:
the strong-buy condition fires. -/
def c1row1 : IndicatorRow := ⟨1, 15, 20, 10, some 5, 0, 0, 0, none⟩

/-- A backtest input row carrying only the fields the engine reads. -/
def mkSignalRow (ts : ℕ) (close : ℚ) (sig : ℤ) : SignalRow :=
  ⟨⟨ts, close, 50, close, none, 0, 0, 0, none⟩, sig, 0⟩

/-- A BUY row priced above the available capital of 100. -/
def zqRow : SignalRow := mkSignalRow 0 200 1

/-- An affordable BUY row. -/
def bRow : SignalRow := mkSignalRow 1 10 1

/-- A SELL row. -/
def sRow : SignalRow := mkSignalRow 2 12 (-1)

/-- 14 bars of strictly rising closes `1, 2, …, 14`: every delta is a
gain, so the Wilder average loss is 0 and the RSI saturates at 100. -/
def c8bars : List Bar :=
  [⟨0, 0, 0, 0, 1, 0⟩, ⟨1, 0, 0, 0, 2, 0⟩, ⟨2, 0, 0, 0, 3, 0⟩, ⟨3, 0, 0, 0, 4, 0⟩,
   ⟨4, 0, 0, 0, 5, 0⟩, ⟨5, 0, 0, 0, 6, 0⟩, ⟨6, 0, 0, 0, 7, 0⟩, ⟨7, 0, 0, 0, 8, 0⟩,
   ⟨8, 0, 0, 0, 9, 0⟩, ⟨9, 0, 0, 0, 10, 0⟩, ⟨10, 0, 0, 0, 11, 0⟩, ⟨11, 0, 0, 0, 12, 0⟩,
   ⟨12, 0, 0, 0, 13, 0⟩, ⟨13, 0, 0, 0, 14, 0⟩]

/-- Three bars — fewer than `RSI_WINDOW`. -/
def c7bars : List Bar := [⟨0, 0, 0, 0, 1, 0⟩, ⟨1, 0, 0, 0, 2, 0⟩, ⟨2, 0, 0, 0, 3, 0⟩]

/-- The loop invariant of the backtest simulation, for non-negative
starting capital and positive close prices: cash stays non-negative, the
share count stays non-negative, cash plus the cost basis of the open
position equals the starting capital plus all realised PnL, and the
executed (positive-quantity) BUYs exceed the SELLs by exactly the open
position indicator. -/
def btInvariant (c0 : ℚ) (s : BTState) : Prop :=
  0 ≤ s.capital ∧ 0 ≤ s.position ∧
  s.capital + (s.position : ℚ) * s.buy_price = c0 + sellPnLSum s.trades ∧
  numPosBuys s.trades = numSells s.trades + (if 0 < s.position then 1 else 0)

/-! ## Bookkeeping lemmas -/

lemma numPosBuys_append_one (ts : List Trade) (t : Trade) :
    numPosBuys (ts ++ [t]) =
      numPosBuys ts + (if t.Side = TradeType.BUY ∧ 0 < t.Quantity then 1 else 0) := by
  simp [numPosBuys, List.countP_append, List.countP_cons]

lemma numSells_append_one (ts : List Trade) (t : Trade) :
    numSells (ts ++ [t]) = numSells ts + (if t.Side = TradeType.SELL then 1 else 0) := by
  simp [numSells, List.countP_append, List.countP_cons]

lemma numBuys_append_one (ts : List Trade) (t : Trade) :
    numBuys (ts ++ [t]) = numBuys ts + (if t.Side = TradeType.BUY then 1 else 0) := by
  simp [numBuys, List.countP_append, List.countP_cons]

lemma sellPnLSum_append_one (ts : List Trade) (t : Trade) :
    sellPnLSum (ts ++ [t]) =
      sellPnLSum ts + (if t.Side = TradeType.SELL then t.PnL.getD 0 else 0) := by
  simp only [sellPnLSum, List.filter_append, List.map_append, List.sum_append]
  split
  · rename_i h
    simp [List.filter_singleton, h]
  · rename_i h
    simp [List.filter_singleton, h]

/-- Non-negative cash survives a BUY: the floored share count never
spends more than the available cash (for a positive close price). -/
lemma buy_capital_nonneg (a c : ℚ) (hc : 0 < c) : 0 ≤ a - (⌊a / c⌋ : ℚ) * c := by
  have h1 : (⌊a / c⌋ : ℚ) ≤ a / c := Int.floor_le _
  have h2 := mul_le_mul_of_nonneg_right h1 hc.le
  rw [div_mul_cancel₀ _ (ne_of_gt hc)] at h2
  linarith

/-- One simulation step preserves the loop invariant. -/
lemma btInvariant_step (c0 : ℚ) (s : BTState) (row : SignalRow)
    (hclose : 0 < row.Close) (hinv : btInvariant c0 s) :
    btInvariant c0 (btStep s row) := by
  obtain ⟨hcap, hpos, hbal, hcount⟩ := hinv
  unfold btStep
  split
  · rename_i h
    obtain ⟨-, hp0⟩ := h
    rw [hp0] at hbal hcount
    simp only [lt_irrefl, if_false, add_zero] at hcount
    push_cast at hbal
    refine ⟨buy_capital_nonneg s.capital row.Close hclose,
      Int.floor_nonneg.mpr (div_nonneg hcap hclose.le), ?_, ?_⟩
    · simp only [sellPnLSum_append_one]
      simp only [reduceCtorEq, if_false, add_zero]
      linear_combination hbal
    · simp [numPosBuys_append_one, numSells_append_one, hcount]
  · rename_i hnotbuy
    split
    · rename_i h
      obtain ⟨-, hppos⟩ := h
      rw [if_pos hppos] at hcount
      refine ⟨?_, le_refl 0, ?_, ?_⟩
      · have hm : 0 < (s.position : ℚ) * row.Close :=
          mul_pos (by exact_mod_cast hppos) hclose
        simp only
        linarith
      · simp only [sellPnLSum_append_one, if_pos, Option.getD_some]
        push_cast
        linear_combination hbal
      · simp [numPosBuys_append_one, numSells_append_one, hcount]
    · exact ⟨hcap, hpos, hbal, hcount⟩

/-- The loop invariant holds after folding any row list with positive
close prices from an invariant-satisfying state. -/
lemma btInvariant_foldl (c0 : ℚ) (rows : List SignalRow) :
    ∀ s : BTState, (∀ r ∈ rows, 0 < r.Close) → btInvariant c0 s →
      btInvariant c0 (rows.foldl btStep s) := by
  induction rows with
  | nil => exact fun s _ hinv => hinv
  | cons r rs ih =>
      intro s hclose hinv
      simp only [List.foldl_cons]
      exact ih (btStep s r) (fun x hx => hclose x (List.mem_cons_of_mem _ hx))
        (btInvariant_step c0 s r (hclose r (List.mem_cons_self _ _)) hinv)

lemma btInvariant_init (c0 : ℚ) (hc : 0 ≤ c0) : btInvariant c0 (btInit c0) := by
  refine ⟨hc, le_refl 0, ?_, ?_⟩
  · simp [btInit, sellPnLSum]
  · simp [btInit, numPosBuys, numSells]

/-- Explicit form of the end-of-sequence flush when a position is open. -/
lemma btFlush_eq (rows : List SignalRow) (s : BTState) (last : SignalRow)
    (hl : rows.getLast? = some last) (hp : 0 < s.position) :
    btFlush rows s =
      { s with
        capital := s.capital + (s.position : ℚ) * last.Close,
        trades := s.trades ++ [⟨last.Timestamp, TradeType.SELL, last.Close, s.position,
          some ((last.Close - s.buy_price) * (s.position : ℚ)),
          last.RSI, last.DMA_20, last.DMA_50, last.MACD, last.Volume_Ratio⟩],
        win_count := s.win_count +
          (if 0 < (last.Close - s.buy_price) * (s.position : ℚ) then 1 else 0),
        trade_count := s.trade_count + 1 } := by
  unfold btFlush
  rw [if_pos hp, hl]

/-- After the loop and the flush: cash is non-negative, cash equals the
starting capital plus the realised PnL of all SELL trades, and every
executed BUY is matched by a SELL. -/
lemma btFinalState_props (rows : List SignalRow) (c0 : ℚ)
    (hc : 0 ≤ c0) (hclose : ∀ r ∈ rows, 0 < r.Close) :
    0 ≤ (btFinalState rows c0).capital ∧
    (btFinalState rows c0).capital = c0 + sellPnLSum (btFinalState rows c0).trades ∧
    numPosBuys (btFinalState rows c0).trades = numSells (btFinalState rows c0).trades := by
  have hinv := btInvariant_foldl c0 rows (btInit c0) hclose (btInvariant_init c0 hc)
  obtain ⟨hcap, hpos, hbal, hcount⟩ := hinv
  unfold btFinalState
  by_cases hp : 0 < (rows.foldl btStep (btInit c0)).position
  · have hne : rows ≠ [] := by
      intro hnil
      rw [hnil] at hp
      simp [btInit] at hp
    have hl := List.getLast?_eq_getLast rows hne
    set last := rows.getLast hne with hlast
    have hlc : 0 < last.Close := hclose last (List.getLast_mem hne)
    rw [btFlush_eq rows _ last hl hp]
    set s := rows.foldl btStep (btInit c0)
    refine ⟨?_, ?_, ?_⟩
    · have : 0 < (s.position : ℚ) * last.Close :=
        mul_pos (by exact_mod_cast hp) hlc
      simp only
      linarith
    · simp only [sellPnLSum_append_one, if_pos, Option.getD_some]
      linarith [hbal]
    · simp only [numPosBuys_append_one, numSells_append_one]
      rw [if_pos hp] at hcount
      simp [hcount]
  · unfold btFlush
    rw [if_neg hp]
    rw [if_neg hp, add_zero] at hcount
    have hp0 : (rows.foldl btStep (btInit c0)).position = 0 := le_antisymm (not_lt.mp hp) hpos
    refine ⟨hcap, ?_, hcount⟩
    rw [hp0] at hbal
    push_cast at hbal
    linarith [hbal]

/-! ## Signal-engine lemmas -/

/-- A firing BUY condition forces an RSI below 40 and a flat-or-short
carried position: every buy disjunct tests one of RSI < 25/30/40 and all
test `current_position <= 0`. -/
lemma buyCond_bounds (hlm : Bool) (prev cur : IndicatorRow) (pos : ℤ)
    (h : buyCond hlm prev cur pos = true) : cur.RSI < 40 ∧ pos ≤ 0 := by
  constructor
  · by_contra hr
    push_neg at hr
    have h25 : decide (cur.RSI < 25) = false := by
      simp only [decide_eq_false_iff_not, not_lt]; linarith
    have h30 : decide (cur.RSI < 30) = false := by
      simp only [decide_eq_false_iff_not, not_lt]; linarith
    have h40 : decide (cur.RSI < 40) = false := by
      simp only [decide_eq_false_iff_not, not_lt]; linarith
    simp [buyCond, h25, h30, h40] at h
  · by_contra hp
    push_neg at hp
    have h0 : decide (pos ≤ 0) = false := by
      simp only [decide_eq_false_iff_not, not_le]; omega
    simp [buyCond, h0] at h

/-- With RSI below 40 and a flat-or-short carried position no SELL
disjunct can fire: `strong_sell` needs RSI > 70 and the other three need
a positive carried position. -/
lemma sellCond_eq_false (hlm : Bool) (prev cur : IndicatorRow) (pos : ℤ)
    (hrsi : cur.RSI < 40) (hpos : pos ≤ 0) :
    sellCond hlm prev cur pos = false := by
  have h70 : decide (70 < cur.RSI) = false := by
    simp only [decide_eq_false_iff_not, not_lt]; linarith
  have hp : decide (0 < pos) = false := by
    simp only [decide_eq_false_iff_not, not_lt]; omega
  simp [sellCond, h70, hp]

/-- BUY and SELL conditions are never both true on a row. -/
lemma buy_sell_exclusive (hlm : Bool) (prev cur : IndicatorRow) (pos : ℤ) :
    (buyCond hlm prev cur pos && sellCond hlm prev cur pos) = false := by
  cases hb : buyCond hlm prev cur pos
  · simp
  · obtain ⟨hr, hp⟩ := buyCond_bounds hlm prev cur pos hb
    simp [sellCond_eq_false hlm prev cur pos hr hp]

/-- The signal written by one loop iteration is −1, 0 or +1. -/
lemma signalRow_fst_mem (hlm : Bool) (prev cur : IndicatorRow) (pos : ℤ) :
    (signalRow hlm prev cur pos).1 = -1 ∨ (signalRow hlm prev cur pos).1 = 0 ∨
      (signalRow hlm prev cur pos).1 = 1 := by
  unfold signalRow
  by_cases hs : sellCond hlm prev cur pos = true
  · simp [hs]
  · by_cases hb : buyCond hlm prev cur pos = true <;> simp [hs, hb]

/-- All rows produced by the loop carry a signal in {−1, 0, 1}. -/
lemma signalsAux_signal_mem (hlm : Bool) (l : List IndicatorRow) :
    ∀ (prev : IndicatorRow) (pos : ℤ),
      ((signalsAux hlm prev pos l).all fun r =>
        decide (r.Signal = -1 ∨ r.Signal = 0 ∨ r.Signal = 1)) = true := by
  induction l with
  | nil => intro prev pos; rfl
  | cons cur rest ih =>
      intro prev pos
      simp only [signalsAux, List.all_cons, Bool.and_eq_true, decide_eq_true_eq]
      exact ⟨signalRow_fst_mem hlm prev cur pos, ih cur _⟩

/-! ## RSI lemmas -/

lemma gain_nonneg (bars : List Bar) (i : ℕ) : 0 ≤ gain bars i := by
  cases i with
  | zero => exact le_refl 0
  | succ n =>
      simp only [gain]
      split
      · rename_i h; exact h.le
      · exact le_refl 0

lemma loss_nonneg (bars : List Bar) (i : ℕ) : 0 ≤ loss bars i := by
  cases i with
  | zero => exact le_refl 0
  | succ n =>
      simp only [loss]
      split
      · rename_i h; linarith
      · exact le_refl 0

lemma ewmWilder_nonneg (x : ℕ → ℚ) (hx : ∀ i, 0 ≤ x i) (i : ℕ) :
    0 ≤ ewmWilder x i := by
  induction i with
  | zero => simpa [ewmWilder] using hx 0
  | succ n ih =>
      simp only [ewmWilder]
      have h1 : (0 : ℚ) ≤ 1 - 1 / (RSI_WINDOW : ℚ) := by norm_num [RSI_WINDOW]
      have h2 : (0 : ℚ) ≤ 1 / (RSI_WINDOW : ℚ) := by norm_num [RSI_WINDOW]
      exact add_nonneg (mul_nonneg h1 ih) (mul_nonneg h2 (hx (n + 1)))

lemma avg_gain_nonneg (bars : List Bar) (i : ℕ) : 0 ≤ avg_gain bars i :=
  ewmWilder_nonneg (gain bars) (gain_nonneg bars) i

lemma avg_loss_nonneg (bars : List Bar) (i : ℕ) : 0 ≤ avg_loss bars i :=
  ewmWilder_nonneg (loss bars) (loss_nonneg bars) i

/-! ## Claim theorems -/

/-- C1 (code evaluated at the failing input): on row 1 of this two-row
input the position is flat (row 0 carries `Position = 0`) and the
strong-buy condition (RSI 20 < 25, short MA 10 above long MA 5) holds,
so the claim expects `Signal = +1` and `Position = 1`; the code emits
`Signal = +1` but `Position = 0`, because the sell branch's `else` arm
re-writes the `Position` cell with the carried position. -/
theorem c1_buy_row_emits_position_zero :
    buyCond (has_long_ma [c1row0, c1row1]) c1row0 c1row1 0 = true ∧
    (generate_signals [c1row0, c1row1]).map (fun r => (r.Signal, r.Position))
      = [(0, 0), (1, 0)] := by
  constructor
  · norm_num [buyCond, golden_cross, ma20_above_ma50, current_ma50, prev_ma50,
      has_long_ma, c1row0, c1row1]
  · norm_num [generate_signals, signalsAux, signalRow, buyCond, sellCond, golden_cross,
      death_cross, ma20_above_ma50, ma20_below_ma50, current_ma50, prev_ma50, has_long_ma,
      c1row0, c1row1]

/-- C2 (counterexample to the claim as stated): with capital 100 and a
BUY signal at close 200, the engine appends a quantity-0 BUY trade and no
SELL ever occurs, so the ledger holds one BUY and zero SELL trades. -/
theorem c2_buy_sell_count_counterexample :
    numBuys (backtest_strategy [zqRow] 100).1 = 1 ∧
    numSells (backtest_strategy [zqRow] 100).1 = 0 := by
  constructor
  · norm_num [backtest_strategy, btFinalState, btFlush, btStep, btInit, numBuys,
      zqRow, mkSignalRow, List.countP, List.countP.go]
  · norm_num [backtest_strategy, btFinalState, btFlush, btStep, btInit,
      numSells, zqRow, mkSignalRow, List.countP, List.countP.go]
    decide

/-- C2 (amended): for every signal sequence with positive close prices
and non-negative initial capital, the number of BUY trades that actually
moved shares (positive quantity) equals the number of SELL trades; the
end-of-sequence flush closes the last open position. -/
theorem c2_executed_buys_match_sells (rows : List SignalRow) (c0 : ℚ)
    (hc : 0 ≤ c0) (hclose : ∀ r ∈ rows, 0 < r.Close) :
    numPosBuys (backtest_strategy rows c0).1 = numSells (backtest_strategy rows c0).1 := by
  have h := (btFinalState_props rows c0 hc hclose).2.2
  simpa [backtest_strategy] using h

/-- Witness for C2 (amended) at a concrete run: one executed BUY, one
SELL after the flush. -/
theorem c2_executed_buys_match_sells_witness :
    numPosBuys (backtest_strategy [bRow, sRow] 100).1
      = numSells (backtest_strategy [bRow, sRow] 100).1 :=
  c2_executed_buys_match_sells [bRow, sRow] 100 (by norm_num)
    (by decide)

/-- C3 (counterexample to the claim as stated): a BUY signal at close
200 with capital 100 while flat is not a silent no-op: a (quantity-0)
trade record is appended and the entry price is overwritten with the
row's close. -/
theorem c3_zero_share_buy_counterexample :
    (btStep (btInit 100) zqRow).trades.length = 1 ∧
    (btStep (btInit 100) zqRow).buy_price = 200 ∧
    (btInit 100).trades.length = 0 ∧ (btInit 100).buy_price = 0 := by
  norm_num [btStep, btInit, zqRow, mkSignalRow]

/-- C3 (amended): when a BUY fires while flat with
`0 ≤ capital < close`, the computed share count is 0, a quantity-0 BUY
trade is appended and the entry price is set to the row's close, while
capital and position are unchanged. -/
theorem c3_zero_share_buy (s : BTState) (row : SignalRow)
    (hsig : row.Signal = 1) (hp : s.position = 0) (hc : 0 ≤ s.capital)
    (hlt : s.capital < row.Close) :
    btStep s row = { s with
      buy_price := row.Close,
      trades := s.trades ++ [⟨row.Timestamp, TradeType.BUY, row.Close, 0, none,
        row.RSI, row.DMA_20, row.DMA_50, row.MACD, row.Volume_Ratio⟩] } := by
  have hcl : 0 < row.Close := lt_of_le_of_lt hc hlt
  have hfl : ⌊s.capital / row.Close⌋ = 0 := by
    rw [Int.floor_eq_zero_iff]
    exact ⟨div_nonneg hc hcl.le, (div_lt_one hcl).mpr hlt⟩
  unfold btStep
  rw [if_pos ⟨hsig, hp⟩, hfl]
  simp [hp]

/-- Witness for C3 (amended) at the concrete zero-share input. -/
theorem c3_zero_share_buy_witness :
    btStep (btInit 100) zqRow = { btInit 100 with
      buy_price := zqRow.Close,
      trades := (btInit 100).trades ++ [⟨zqRow.Timestamp, TradeType.BUY, zqRow.Close, 0,
        none, zqRow.RSI, zqRow.DMA_20, zqRow.DMA_50, zqRow.MACD, zqRow.Volume_Ratio⟩] } :=
  c3_zero_share_buy (btInit 100) zqRow (by decide) (by decide) (by decide) (by decide)

/-- C4: whenever the loop ends with an open position, the flush appends
one SELL trade dated at the last row's timestamp and priced at its
close, with the ordinary SELL accounting (proceeds added to capital, PnL
= (close − entry) × quantity, trade_count incremented, win_count
incremented exactly when PnL > 0); afterwards every executed BUY is
matched by a SELL, so the simulation ends flat. -/
theorem c4_flush_closes_open_position (rows : List SignalRow) (c0 : ℚ)
    (last : SignalRow) (hc : 0 ≤ c0) (hclose : ∀ r ∈ rows, 0 < r.Close)
    (hl : rows.getLast? = some last)
    (hp : 0 < (rows.foldl btStep (btInit c0)).position) :
    btFinalState rows c0 =
      (let s := rows.foldl btStep (btInit c0)
       { s with
         capital := s.capital + (s.position : ℚ) * last.Close,
         trades := s.trades ++ [⟨last.Timestamp, TradeType.SELL, last.Close, s.position,
           some ((last.Close - s.buy_price) * (s.position : ℚ)),
           last.RSI, last.DMA_20, last.DMA_50, last.MACD, last.Volume_Ratio⟩],
         win_count := s.win_count +
           (if 0 < (last.Close - s.buy_price) * (s.position : ℚ) then 1 else 0),
         trade_count := s.trade_count + 1 }) ∧
    (backtest_strategy rows c0).2.2.2
      = (rows.foldl btStep (btInit c0)).trade_count + 1 ∧
    numPosBuys (backtest_strategy rows c0).1 = numSells (backtest_strategy rows c0).1 := by
  have hflush := btFlush_eq rows (rows.foldl btStep (btInit c0)) last hl hp
  refine ⟨?_, ?_, ?_⟩
  · unfold btFinalState
    exact hflush
  · simp only [backtest_strategy, btFinalState, hflush]
  · have h := (btFinalState_props rows c0 hc hclose).2.2
    simpa [backtest_strategy] using h

/-- Witness for C4: one affordable BUY row leaves an open position of 10
shares, which the flush closes at the same row's close. -/
theorem c4_flush_closes_open_position_witness :
    btFinalState [bRow] 100 =
      (let s := [bRow].foldl btStep (btInit 100)
       { s with
         capital := s.capital + (s.position : ℚ) * bRow.Close,
         trades := s.trades ++ [⟨bRow.Timestamp, TradeType.SELL, bRow.Close, s.position,
           some ((bRow.Close - s.buy_price) * (s.position : ℚ)),
           bRow.RSI, bRow.DMA_20, bRow.DMA_50, bRow.MACD, bRow.Volume_Ratio⟩],
         win_count := s.win_count +
           (if 0 < (bRow.Close - s.buy_price) * (s.position : ℚ) then 1 else 0),
         trade_count := s.trade_count + 1 }) ∧
    (backtest_strategy [bRow] 100).2.2.2
      = ([bRow].foldl btStep (btInit 100)).trade_count + 1 ∧
    numPosBuys (backtest_strategy [bRow] 100).1
      = numSells (backtest_strategy [bRow] 100).1 :=
  c4_flush_closes_open_position [bRow] 100 bRow (by norm_num) (by decide) rfl
    (by norm_num [btStep, btInit, bRow, mkSignalRow])

/-- C5: on a BUY step the share count is `⌊capital / close⌋` and the
cash deducted is exactly that share count times the close, leaving
non-negative cash for any positive close; consequently, for every run
with positive closes and non-negative initial capital, cash is
non-negative after every prefix of the row sequence and after the final
flush. -/
theorem c5_capital_never_negative (rows : List SignalRow) (c0 : ℚ)
    (hc : 0 ≤ c0) (hclose : ∀ r ∈ rows, 0 < r.Close) :
    (∀ (s : BTState) (row : SignalRow), row.Signal = 1 → s.position = 0 →
      0 < row.Close →
      (btStep s row).position = ⌊s.capital / row.Close⌋ ∧
      (btStep s row).capital
        = s.capital - (⌊s.capital / row.Close⌋ : ℚ) * row.Close ∧
      0 ≤ (btStep s row).capital) ∧
    (∀ n : ℕ, 0 ≤ ((rows.take n).foldl btStep (btInit c0)).capital) ∧
    0 ≤ (btFinalState rows c0).capital := by
  refine ⟨?_, ?_, (btFinalState_props rows c0 hc hclose).1⟩
  · intro s row hsig hp hcl
    unfold btStep
    rw [if_pos ⟨hsig, hp⟩]
    exact ⟨rfl, rfl, buy_capital_nonneg s.capital row.Close hcl⟩
  · intro n
    have hsub : ∀ r ∈ rows.take n, 0 < r.Close := fun r hr =>
      hclose r (List.take_subset n rows hr)
    exact (btInvariant_foldl c0 (rows.take n) (btInit c0) hsub (btInvariant_init c0 hc)).1

/-- Witness for C5 at a concrete two-row run. -/
theorem c5_capital_never_negative_witness :
    (∀ (s : BTState) (row : SignalRow), row.Signal = 1 → s.position = 0 →
      0 < row.Close →
      (btStep s row).position = ⌊s.capital / row.Close⌋ ∧
      (btStep s row).capital
        = s.capital - (⌊s.capital / row.Close⌋ : ℚ) * row.Close ∧
      0 ≤ (btStep s row).capital) ∧
    (∀ n : ℕ, 0 ≤ (([bRow, sRow].take n).foldl btStep (btInit 100)).capital) ∧
    0 ≤ (btFinalState [bRow, sRow] 100).capital :=
  c5_capital_never_negative [bRow, sRow] 100 (by norm_num) (by decide)

/-- C6: no row honours a BUY and a SELL condition simultaneously, and
every signal emitted by the engine is −1, 0 or +1. -/
theorem c6_no_simultaneous_buy_sell :
    (∀ (hlm : Bool) (prev cur : IndicatorRow) (pos : ℤ),
      (buyCond hlm prev cur pos && sellCond hlm prev cur pos) = false) ∧
    (∀ rows : List IndicatorRow,
      ((generate_signals rows).all fun r =>
        decide (r.Signal = -1 ∨ r.Signal = 0 ∨ r.Signal = 1)) = true) := by
  refine ⟨buy_sell_exclusive, ?_⟩
  intro rows
  cases rows with
  | nil => rfl
  | cons r0 rest =>
      simp only [generate_signals, List.all_cons, Bool.and_eq_true, decide_eq_true_eq]
      refine ⟨by simp, signalsAux_signal_mem _ rest r0 0⟩

/-- C7: an input with fewer bars than the RSI window yields the empty
result (the total function returns `[]`; nothing is raised). -/
theorem c7_short_input_yields_empty (bars : List Bar)
    (h : bars.length < RSI_WINDOW) :
    calculate_technical_indicators bars = [] := by
  unfold calculate_technical_indicators
  by_cases he : bars.isEmpty <;> simp [he, h]

/-- Witness for C7: three bars produce the empty result. -/
theorem c7_short_input_yields_empty_witness :
    calculate_technical_indicators c7bars = [] :=
  c7_short_input_yields_empty c7bars (by decide)

/-- C8: wherever the RSI is defined it lies in [0, 100], and it equals
100 exactly when the Wilder-smoothed average loss is 0 while the average
gain is positive (the division-by-zero edge handled as the sentinel
100). -/
theorem c8_rsi_bounds (bars : List Bar) (i : ℕ) (v : ℚ)
    (h : RSIat bars i = some v) :
    0 ≤ v ∧ v ≤ 100 ∧
      (v = 100 ↔ avg_loss bars i = 0 ∧ 0 < avg_gain bars i) := by
  have hg : 0 ≤ avg_gain bars i := avg_gain_nonneg bars i
  have hl : 0 ≤ avg_loss bars i := avg_loss_nonneg bars i
  unfold RSIat at h
  split at h
  · exact absurd h (by simp)
  · unfold rsiFromAvg at h
    by_cases h0 : avg_loss bars i = 0
    · rw [if_pos h0] at h
      by_cases hgp : 0 < avg_gain bars i
      · rw [if_pos hgp] at h
        have hv : v = 100 := (Option.some.inj h).symm
        subst hv
        refine ⟨by norm_num, le_refl _, ?_⟩
        simp [h0, hgp]
      · rw [if_neg hgp] at h
        exact absurd h (by simp)
    · rw [if_neg h0] at h
      have hlpos : 0 < avg_loss bars i := lt_of_le_of_ne hl (Ne.symm h0)
      have hq : 0 ≤ avg_gain bars i / avg_loss bars i := div_nonneg hg hl
      have hd : 0 < 1 + avg_gain bars i / avg_loss bars i := by linarith
      have hfp : 0 < 100 / (1 + avg_gain bars i / avg_loss bars i) := by positivity
      have hfle : 100 / (1 + avg_gain bars i / avg_loss bars i) ≤ 100 := by
        rw [div_le_iff₀ hd]
        nlinarith
      have hv : v = 100 - 100 / (1 + avg_gain bars i / avg_loss bars i) :=
        (Option.some.inj h).symm
      subst hv
      refine ⟨by linarith, by linarith, ?_⟩
      constructor
      · intro hv100
        exact absurd (by linarith : (100 : ℚ) / (1 + avg_gain bars i / avg_loss bars i) = 0)
          (ne_of_gt hfp)
      · rintro ⟨h0', -⟩
        exact absurd h0' h0

/-- Witness for C8: 14 strictly rising closes give average loss 0,
positive average gain and RSI exactly 100. -/
theorem c8_rsi_bounds_witness :
    0 ≤ (100 : ℚ) ∧ (100 : ℚ) ≤ 100 ∧
      ((100 : ℚ) = 100 ↔ avg_loss c8bars 13 = 0 ∧ 0 < avg_gain c8bars 13) :=
  c8_rsi_bounds c8bars 13 100 (by
    norm_num [RSIat, rsiFromAvg, avg_gain, avg_loss, ewmWilder, gain, loss, delta,
      closeAt, c8bars, RSI_WINDOW, List.getD])

/-- C9: the indicator → signal → backtest pipeline is a pure function:
two runs on equal inputs produce equal Signal/Position columns and equal
trade lists (and equal metrics). -/
theorem c9_pipeline_deterministic (bars1 bars2 : List Bar) (cap1 cap2 : ℚ)
    (hb : bars1 = bars2) (hcap : cap1 = cap2) :
    (runPipeline bars1 cap1).1.map (fun r => (r.Signal, r.Position))
      = (runPipeline bars2 cap2).1.map (fun r => (r.Signal, r.Position)) ∧
    (runPipeline bars1 cap1).2.1 = (runPipeline bars2 cap2).2.1 ∧
    runPipeline bars1 cap1 = runPipeline bars2 cap2 := by
  rw [hb, hcap]
  exact ⟨rfl, rfl, rfl⟩

/-- Witness for C9 at a concrete input. -/
theorem c9_pipeline_deterministic_witness :
    (runPipeline c8bars 100).1.map (fun r => (r.Signal, r.Position))
      = (runPipeline c8bars 100).1.map (fun r => (r.Signal, r.Position)) ∧
    (runPipeline c8bars 100).2.1 = (runPipeline c8bars 100).2.1 ∧
    runPipeline c8bars 100 = runPipeline c8bars 100 :=
  c9_pipeline_deterministic c8bars c8bars 100 100 rfl rfl

/-- C10: the simulation conserves cash: for positive initial capital and
positive closes, the final capital equals the initial capital plus the
sum of the PnL fields of the SELL trades, and `total_return × initial`
equals that PnL sum. -/
theorem c10_cash_conservation (rows : List SignalRow) (c0 : ℚ)
    (hc : 0 < c0) (hclose : ∀ r ∈ rows, 0 < r.Close) :
    (btFinalState rows c0).capital = c0 + sellPnLSum (btFinalState rows c0).trades ∧
    (backtest_strategy rows c0).2.1 * c0 = sellPnLSum (backtest_strategy rows c0).1 := by
  have h := (btFinalState_props rows c0 hc.le hclose).2.1
  refine ⟨h, ?_⟩
  simp only [backtest_strategy]
  rw [div_mul_cancel₀ _ (ne_of_gt hc), h]
  ring

/-- Witness for C10 at a concrete run: BUY 10 shares at 10, SELL at 12,
PnL 20, final capital 120. -/
theorem c10_cash_conservation_witness :
    (btFinalState [bRow, sRow] 100).capital
      = 100 + sellPnLSum (btFinalState [bRow, sRow] 100).trades ∧
    (backtest_strategy [bRow, sRow] 100).2.1 * 100
      = sellPnLSum (backtest_strategy [bRow, sRow] 100).1 :=
  c10_cash_conservation [bRow, sRow] 100 (by norm_num) (by decide)

end AlgoTrading
